import Mathlib

/-!
Shallow embedding of the student-collab-hub server routes (users, posts,
comments) and proofs of the behavioural properties stated for them.

Conventions of the embedding:
- A MongoDB collection is an association list from document id to record;
  `dbFind` is `Model.findById` (first entry with the id, ids being unique),
  `dbUpdate` is `Model.findByIdAndUpdate` and `dbDeleteId` is
  `Model.findByIdAndDelete`.
- `$push` appends to an array field; `$pull` removes every matching element.
- A route handler is a function from the relevant collection state (plus the
  authenticated caller and request parameters) to an HTTP status code and the
  new state; handlers that also report data return it alongside.
-/

/-- `Model.findById`: the first (hence, with unique ids, the) document whose
id equals `k`. -/
def dbFind {α : Type} : List (String × α) → String → Option α
  | [], _ => none
  | e :: tl, k => if e.1 = k then some e.2 else dbFind tl k

/-- `Model.findByIdAndUpdate`: apply the update to the document with id `k`
(a missing id is a no-op, as in MongoDB). -/
def dbUpdate {α : Type} (db : List (String × α)) (k : String) (f : α → α) :
    List (String × α) :=
  db.map (fun e => if e.1 = k then (e.1, f e.2) else e)

/-- `Model.findByIdAndDelete`: remove the document with id `k`. -/
def dbDeleteId {α : Type} (db : List (String × α)) (k : String) :
    List (String × α) :=
  db.filter (fun e => e.1 ≠ k)

/-- A stored User document (the fields the verified routes read or write),
from the User schema: `followers` and `following` hold user-id strings. -/
structure UserRec where
  username : String
  email : String
  fullName : String
  university : String
  major : String
  bio : String
  followers : List String
  following : List String
  createdAt : Nat
deriving Repr, DecidableEq

/-- The users collection. -/
abbrev UsersDB := List (String × UserRec)

/-- POST `/:userId/follow` (users router): reject following yourself with 400;
404 when the target does not exist; if the caller already follows the target,
toggle to an unfollow (`$pull` on both mirror arrays); otherwise `$push` the
target into the caller's `following` and the caller into the target's
`followers`.  A missing caller document would throw, caught as a 500 with no
mutation performed. -/
def followOp (db : UsersDB) (callerId targetId : String) : Nat × UsersDB :=
  if targetId = callerId then (400, db)
  else
    match dbFind db targetId with
    | none => (404, db)
    | some _ =>
      match dbFind db callerId with
      | none => (500, db)
      | some currentUser =>
        if targetId ∈ currentUser.following then
          (200,
            dbUpdate
              (dbUpdate db callerId
                (fun u => { u with following := u.following.filter (fun x => x != targetId) }))
              targetId
              (fun u => { u with followers := u.followers.filter (fun x => x != callerId) }))
        else
          (200,
            dbUpdate
              (dbUpdate db callerId
                (fun u => { u with following := u.following ++ [targetId] }))
              targetId
              (fun u => { u with followers := u.followers ++ [callerId] }))

/-- DELETE `/:userId/follow` (users router): reject unfollowing yourself with
400; 404 when the target does not exist; 400 when the caller does not follow
the target; otherwise `$pull` the target from the caller's `following` and the
caller from the target's `followers`. -/
def unfollowOp (db : UsersDB) (callerId targetId : String) : Nat × UsersDB :=
  if targetId = callerId then (400, db)
  else
    match dbFind db targetId with
    | none => (404, db)
    | some _ =>
      match dbFind db callerId with
      | none => (500, db)
      | some currentUser =>
        if targetId ∈ currentUser.following then
          (200,
            dbUpdate
              (dbUpdate db callerId
                (fun u => { u with following := u.following.filter (fun x => x != targetId) }))
              targetId
              (fun u => { u with followers := u.followers.filter (fun x => x != callerId) }))
        else
          (400, db)

/-- No user appears in their own `followers` or `following` array. -/
def selfClean (db : UsersDB) : Prop :=
  ∀ e ∈ db, e.1 ∉ e.2.followers ∧ e.1 ∉ e.2.following

instance (db : UsersDB) : Decidable (selfClean db) := by
  unfold selfClean; infer_instance

/-- One follow-route request: the caller and target of a POST or DELETE on
`/:userId/follow`. -/
inductive FollowAction where
  | follow : String → String → FollowAction
  | unfollow : String → String → FollowAction
deriving Repr, DecidableEq

/-- The state change performed by one follow-route request. -/
def applyAction (db : UsersDB) : FollowAction → UsersDB
  | .follow c t => (followOp db c t).2
  | .unfollow c t => (unfollowOp db c t).2

/-- The state after a sequence of follow-route requests. -/
def runActions (db : UsersDB) (acts : List FollowAction) : UsersDB :=
  acts.foldl applyAction db

/-- A stored Post document (the fields the verified routes read or write),
from the Post schema: `likes` holds user ids, `comments` holds comment ids,
`views` defaults to 0 and `isPublic` to true. -/
structure PostRec where
  author : String
  type : String
  title : String
  content : String
  category : String
  tags : List String
  likes : List String
  comments : List String
  views : Nat
  isPublic : Bool
  createdAt : Nat
deriving Repr, DecidableEq

/-- The posts collection. -/
abbrev PostsDB := List (String × PostRec)

/-- A stored Comment document: `post` is the owning post's id,
`parentComment` is the parent comment's id when the comment is a reply,
`replies` holds the ids of the replies pushed onto this comment. -/
structure CommentRec where
  author : String
  post : String
  content : String
  parentComment : Option String
  replies : List String
  likes : List String
  createdAt : Nat
deriving Repr, DecidableEq

/-- The comments collection. -/
abbrev CommentsDB := List (String × CommentRec)

/-- GET `/:postId` (posts router, `optionalAuth`): 404 when the post does not
exist; otherwise increment the post's view counter (`post.views += 1` then
`post.save()`) and return it.  The caller identity only decorates the JSON
response (`isLiked`) and never reaches the stored state. -/
def getPostOp (db : PostsDB) (caller : Option String) (postId : String) :
    Nat × PostsDB :=
  match dbFind db postId with
  | none => (404, db)
  | some _ => (200, dbUpdate db postId (fun p => { p with views := p.views + 1 }))

/-- POST `/:postId/like` (posts router): 404 when the post does not exist;
when the caller's id is already in `likes`, `$pull` it and report
`liked: false`; otherwise `$push` it and report `liked: true`. -/
def likePostOp (db : PostsDB) (callerId postId : String) :
    Nat × PostsDB × Option Bool :=
  match dbFind db postId with
  | none => (404, db, none)
  | some post =>
    if callerId ∈ post.likes then
      (200,
        dbUpdate db postId
          (fun p => { p with likes := p.likes.filter (fun x => x != callerId) }),
        some false)
    else
      (200, dbUpdate db postId (fun p => { p with likes := p.likes ++ [callerId] }),
        some true)

/-- POST `/:commentId/like` (comments router): same toggle as for posts, on
the comment's `likes` array. -/
def likeCommentOp (db : CommentsDB) (callerId commentId : String) :
    Nat × CommentsDB × Option Bool :=
  match dbFind db commentId with
  | none => (404, db, none)
  | some comment =>
    if callerId ∈ comment.likes then
      (200,
        dbUpdate db commentId
          (fun c => { c with likes := c.likes.filter (fun x => x != callerId) }),
        some false)
    else
      (200,
        dbUpdate db commentId (fun c => { c with likes := c.likes ++ [callerId] }),
        some true)

/-- The joint state the comment routes touch: the posts and comments
collections. -/
structure Store where
  posts : PostsDB
  comments : CommentsDB
deriving Repr, DecidableEq

/-- `parentCommentId || null`: a falsy body value (absent or the empty
string) is stored as `null`. -/
def normalizeParentId (x : Option String) : Option String :=
  match x with
  | some s => if s = "" then none else some s
  | none => none

/-- POST `/` (comments router): validate `content` (nonempty, ≤ 1000) and
`postId` (nonempty); 404 when the post — or, for a reply, the parent
comment — does not exist; save the new comment (with `parentComment` set to
the parent id, or `null` for a falsy/absent `parentCommentId`); for a reply,
`$push` the new id onto the parent's `replies`; and always `$push` the new id
onto the post's `comments` array.  `newId` is the id MongoDB generates for
the saved comment and `now` its creation timestamp. -/
def createCommentOp (s : Store) (callerId newId postId content : String)
    (parentCommentId : Option String) (now : Nat) : Nat × Store :=
  if content = "" ∨ content.length > 1000 ∨ postId = "" then (400, s)
  else
    match dbFind s.posts postId with
    | none => (404, s)
    | some _ =>
      match normalizeParentId parentCommentId with
      | some pc =>
        match dbFind s.comments pc with
        | none => (404, s)
        | some _ =>
          (201,
            { posts := dbUpdate s.posts postId
                (fun p => { p with comments := p.comments ++ [newId] }),
              comments := dbUpdate
                (s.comments ++ [(newId,
                  { author := callerId, post := postId, content := content,
                    parentComment := some pc, replies := [], likes := [],
                    createdAt := now })])
                pc (fun q => { q with replies := q.replies ++ [newId] }) })
      | none =>
        (201,
          { posts := dbUpdate s.posts postId
              (fun p => { p with comments := p.comments ++ [newId] }),
            comments := s.comments ++ [(newId,
              { author := callerId, post := postId, content := content,
                parentComment := none, replies := [], likes := [],
                createdAt := now })] })

/-- DELETE `/:commentId` (comments router): 404 when the comment does not
exist; 403 when the caller is not its author; otherwise `$pull` the comment id
from its post's `comments` array, `$pull` it from the parent's `replies` when
it is a reply, `deleteMany` every comment whose `parentComment` is this
comment, and finally delete the comment itself. -/
def deleteCommentOp (s : Store) (callerId commentId : String) : Nat × Store :=
  match dbFind s.comments commentId with
  | none => (404, s)
  | some comment =>
    if comment.author ≠ callerId then (403, s)
    else
      (200,
        { posts := dbUpdate s.posts comment.post
            (fun p => { p with comments := p.comments.filter (fun x => x != commentId) }),
          comments := dbDeleteId
            ((match comment.parentComment with
              | some pc => dbUpdate s.comments pc
                  (fun q => { q with replies := q.replies.filter (fun x => x != commentId) })
              | none => s.comments).filter
                (fun e => e.2.parentComment != some commentId))
            commentId })

/-- DELETE `/:postId/comments/:commentId` (posts router): the same cascade,
except that the `$pull` of the comment id targets the post id taken from the
request path rather than the comment's own `post` field. -/
def deleteCommentUnderPostOp (s : Store) (callerId postId commentId : String) :
    Nat × Store :=
  match dbFind s.comments commentId with
  | none => (404, s)
  | some comment =>
    if comment.author ≠ callerId then (403, s)
    else
      (200,
        { posts := dbUpdate s.posts postId
            (fun p => { p with comments := p.comments.filter (fun x => x != commentId) }),
          comments := dbDeleteId
            ((match comment.parentComment with
              | some pc => dbUpdate s.comments pc
                  (fun q => { q with replies := q.replies.filter (fun x => x != commentId) })
              | none => s.comments).filter
                (fun e => e.2.parentComment != some commentId))
            commentId })

/-- A concrete user for witness instances. -/
def demoUserA : UserRec :=
  { username := "alice", email := "alice@uni.edu", fullName := "Alice A",
    university := "Uni", major := "CS", bio := "", followers := [],
    following := [], createdAt := 0 }

/-- A second concrete user for witness instances. -/
def demoUserB : UserRec :=
  { username := "bob", email := "bob@uni.edu", fullName := "Bob B",
    university := "Uni", major := "EE", bio := "", followers := [],
    following := [], createdAt := 1 }

/-- A concrete users collection for witness instances. -/
def demoUsersDB : UsersDB := [("idA", demoUserA), ("idB", demoUserB)]

/-- A concrete post for witness instances. -/
def demoPost : PostRec :=
  { author := "idA", type := "note", title := "linear algebra notes",
    content := "notes", category := "academic", tags := [], likes := [],
    comments := [], views := 0, isPublic := true, createdAt := 0 }

/-- A concrete posts collection for witness instances. -/
def demoPostsDB : PostsDB := [("p1", demoPost)]

/-- A concrete private post for witness instances. -/
def demoPrivatePost : PostRec :=
  { author := "idA", type := "note", title := "draft", content := "wip",
    category := "project", tags := [], likes := [], comments := [],
    views := 0, isPublic := false, createdAt := 3 }

/-- A concrete comment for witness instances. -/
def demoComment : CommentRec :=
  { author := "idA", post := "p1", content := "nice notes!",
    parentComment := none, replies := [], likes := [], createdAt := 0 }

/-- A concrete comments collection for witness instances. -/
def demoCommentsDB : CommentsDB := [("c1", demoComment)]

/-- A concrete reply to `demoComment` for witness instances. -/
def demoReply : CommentRec :=
  { author := "idB", post := "p1", content := "thanks!",
    parentComment := some "c1", replies := [], likes := [], createdAt := 2 }

/-- A concrete store holding one post, one top-level comment and one reply
(each id back-referenced as the routes maintain them). -/
def demoStore : Store :=
  { posts := [("p1", { demoPost with comments := ["c1", "r1"] })],
    comments := [("c1", { demoComment with replies := ["r1"] }),
                 ("r1", demoReply)] }

/-- A concrete store holding one post and one top-level comment, before any
reply is created. -/
def demoStoreBase : Store :=
  { posts := [("p1", { demoPost with comments := ["c1"] })],
    comments := [("c1", demoComment)] }

/-- `Math.ceil(total / limit)` as computed for the `pages` field, for a
positive `limit`. -/
def jsCeilDiv (a b : Nat) : Nat := (a + b - 1) / b

/-- The pagination object every listing endpoint returns. -/
structure Pagination where
  page : Nat
  limit : Nat
  total : Nat
  pages : Nat
deriving Repr, DecidableEq

/-- `.skip((page - 1) * limit).limit(limit)`. -/
def paginate {alpha : Type} (l : List alpha) (page limit : Nat) : List alpha :=
  (l.drop ((page - 1) * limit)).take limit

/-- Insert into a list sorted by `le` (used to model `.sort(...)`). -/
def insertSorted {alpha : Type} (le : alpha → alpha → Bool) (x : alpha) :
    List alpha → List alpha
  | [] => [x]
  | y :: ys => if le x y then x :: y :: ys else y :: insertSorted le x ys

/-- A deterministic sort by `le`, modelling the storage engine's `.sort(...)`
(for the paging properties only its being a permutation matters). -/
def sortBy {alpha : Type} (le : alpha → alpha → Bool) (l : List alpha) :
    List alpha :=
  l.foldr (insertSorted le) []

/-- `.sort with createdAt descending` on id/record entries. -/
def sortNewest {alpha : Type} (key : alpha → Nat) (l : List alpha) : List alpha :=
  sortBy (fun a b => key b ≤ key a) l

/-- `.sort with createdAt ascending` on id/record entries. -/
def sortOldest {alpha : Type} (key : alpha → Nat) (l : List alpha) : List alpha :=
  sortBy (fun a b => key a ≤ key b) l

/-- Leading-segment test for the regex model. -/
def charsLead : List Char → List Char → Bool
  | [], _ => true
  | _ :: _, [] => false
  | a :: as, b :: bs => a == b && charsLead as bs

/-- Occurrence test: the needle occurs somewhere in the haystack. -/
def charsOccur (needle : List Char) : List Char → Bool
  | [] => charsLead needle []
  | b :: bs => charsLead needle (b :: bs) || charsOccur needle bs

/-- `new RegExp(needle, 'i').test(hay)` for a needle without regex
metacharacters: case-insensitive substring containment. -/
def regexTest (needle hay : String) : Bool :=
  charsOccur needle.toLower.toList hay.toLower.toList

/-- The query object GET `/` (posts router) builds: always `isPublic: true`,
plus `type`/`category`/`author` equality filters for truthy parameters and a
case-insensitive `$or` regex search over title, content and tags. -/
def postsQueryMatch (p : PostRec) (qtype qcategory qauthor qsearch : String) :
    Bool :=
  p.isPublic &&
  (qtype == "" || p.type == qtype) &&
  (qcategory == "" || p.category == qcategory) &&
  (qauthor == "" || p.author == qauthor) &&
  (qsearch == "" || regexTest qsearch p.title || regexTest qsearch p.content ||
    p.tags.any (fun t => regexTest qsearch t))

/-- The documents matching the GET `/` posts query, in fetch order
(`createdAt` descending). -/
def listPostsResultSet (db : PostsDB) (qtype qcategory qauthor qsearch : String) :
    List (String × PostRec) :=
  sortNewest (fun e => e.2.createdAt)
    (db.filter (fun e => postsQueryMatch e.2 qtype qcategory qauthor qsearch))

/-- GET `/` (posts router): paginated, filtered post listing with
`{page, limit, total, pages}` where `total` is `countDocuments(query)` and
`pages` is `Math.ceil(total / limit)`. -/
def listPostsOp (db : PostsDB) (page limit : Nat)
    (qtype qcategory qauthor qsearch : String) :
    List (String × PostRec) × Pagination :=
  (paginate (listPostsResultSet db qtype qcategory qauthor qsearch) page limit,
    { page := page, limit := limit,
      total := (db.filter
        (fun e => postsQueryMatch e.2 qtype qcategory qauthor qsearch)).length,
      pages := jsCeilDiv
        (db.filter
          (fun e => postsQueryMatch e.2 qtype qcategory qauthor qsearch)).length
        limit })

/-- The query object GET `/` (users router) builds: optional case-insensitive
search over username/fullName, and regex filters on university and major. -/
def usersQueryMatch (u : UserRec) (qsearch quniversity qmajor : String) : Bool :=
  (qsearch == "" || regexTest qsearch u.username || regexTest qsearch u.fullName) &&
  (quniversity == "" || regexTest quniversity u.university) &&
  (qmajor == "" || regexTest qmajor u.major)

/-- The documents matching the GET `/` users query, in fetch order. -/
def listUsersResultSet (db : UsersDB) (qsearch quniversity qmajor : String) :
    List (String × UserRec) :=
  sortNewest (fun e => e.2.createdAt)
    (db.filter (fun e => usersQueryMatch e.2 qsearch quniversity qmajor))

/-- GET `/` (users router): paginated, filtered user listing. -/
def listUsersOp (db : UsersDB) (page limit : Nat)
    (qsearch quniversity qmajor : String) :
    List (String × UserRec) × Pagination :=
  (paginate (listUsersResultSet db qsearch quniversity qmajor) page limit,
    { page := page, limit := limit,
      total := (db.filter
        (fun e => usersQueryMatch e.2 qsearch quniversity qmajor)).length,
      pages := jsCeilDiv
        (db.filter
          (fun e => usersQueryMatch e.2 qsearch quniversity qmajor)).length
        limit })

/-- GET `/liked` (posts router) query: posts whose `likes` contain the caller
and which are public. -/
def likedQueryMatch (p : PostRec) (callerId : String) : Bool :=
  p.likes.contains callerId && p.isPublic

/-- The documents matching the GET `/liked` query, in fetch order. -/
def likedPostsResultSet (db : PostsDB) (callerId : String) :
    List (String × PostRec) :=
  sortNewest (fun e => e.2.createdAt)
    (db.filter (fun e => likedQueryMatch e.2 callerId))

/-- GET `/liked` (posts router): paginated listing of the caller's liked
public posts. -/
def likedPostsOp (db : PostsDB) (callerId : String) (page limit : Nat) :
    List (String × PostRec) × Pagination :=
  (paginate (likedPostsResultSet db callerId) page limit,
    { page := page, limit := limit,
      total := (db.filter (fun e => likedQueryMatch e.2 callerId)).length,
      pages := jsCeilDiv
        (db.filter (fun e => likedQueryMatch e.2 callerId)).length limit })

/-- GET `/user/:userId` (posts router) query: the user's posts, optionally
filtered by type; `isPublic: true` is added unless the authenticated caller is
that user. -/
def userPostsQueryMatch (p : PostRec) (uid qtype : String)
    (requirePublic : Bool) : Bool :=
  p.author == uid && (qtype == "" || p.type == qtype) &&
  (!requirePublic || p.isPublic)

/-- Whether GET `/user/:userId` restricts to public posts: yes unless the
caller is authenticated as that user. -/
def userPostsRequirePublic (caller : Option String) (uid : String) : Bool :=
  match caller with
  | none => true
  | some c => uid != c

/-- The documents matching the GET `/user/:userId` query, in fetch order. -/
def userPostsResultSet (db : PostsDB) (caller : Option String)
    (uid qtype : String) : List (String × PostRec) :=
  sortNewest (fun e => e.2.createdAt)
    (db.filter (fun e =>
      userPostsQueryMatch e.2 uid qtype (userPostsRequirePublic caller uid)))

/-- GET `/user/:userId` (posts router): paginated listing of a user's posts. -/
def userPostsOp (db : PostsDB) (caller : Option String) (uid : String)
    (page limit : Nat) (qtype : String) :
    List (String × PostRec) × Pagination :=
  (paginate (userPostsResultSet db caller uid qtype) page limit,
    { page := page, limit := limit,
      total := (db.filter (fun e =>
        userPostsQueryMatch e.2 uid qtype (userPostsRequirePublic caller uid))).length,
      pages := jsCeilDiv
        (db.filter (fun e =>
          userPostsQueryMatch e.2 uid qtype
            (userPostsRequirePublic caller uid))).length limit })

/-- GET `/post/:postId` (comments router) query: top-level comments of the
post (`parentComment: null`). -/
def commentsByPostMatch (c : CommentRec) (pid : String) : Bool :=
  c.post == pid && c.parentComment == none

/-- The documents matching the comments-by-post query, newest first. -/
def commentsByPostResultSet (db : CommentsDB) (pid : String) :
    List (String × CommentRec) :=
  sortNewest (fun e => e.2.createdAt)
    (db.filter (fun e => commentsByPostMatch e.2 pid))

/-- GET `/post/:postId` (comments router): paginated top-level comments. -/
def commentsByPostOp (db : CommentsDB) (pid : String) (page limit : Nat) :
    List (String × CommentRec) × Pagination :=
  (paginate (commentsByPostResultSet db pid) page limit,
    { page := page, limit := limit,
      total := (db.filter (fun e => commentsByPostMatch e.2 pid)).length,
      pages := jsCeilDiv
        (db.filter (fun e => commentsByPostMatch e.2 pid)).length limit })

/-- GET `/:commentId/replies` (comments router) query: comments whose
`parentComment` is the given comment. -/
def repliesMatch (c : CommentRec) (cid : String) : Bool :=
  c.parentComment == some cid

/-- The documents matching the replies query, oldest first
(`createdAt: 1`). -/
def repliesResultSet (db : CommentsDB) (cid : String) :
    List (String × CommentRec) :=
  sortOldest (fun e => e.2.createdAt)
    (db.filter (fun e => repliesMatch e.2 cid))

/-- GET `/:commentId/replies` (comments router): paginated replies. -/
def repliesOp (db : CommentsDB) (cid : String) (page limit : Nat) :
    List (String × CommentRec) × Pagination :=
  (paginate (repliesResultSet db cid) page limit,
    { page := page, limit := limit,
      total := (db.filter (fun e => repliesMatch e.2 cid)).length,
      pages := jsCeilDiv
        (db.filter (fun e => repliesMatch e.2 cid)).length limit })

/-- The concatenation, in order, of the record lists of pages `1 .. pages` of
a paginated endpoint. -/
def pagesConcat {alpha beta : Type} (fetch : Nat → List alpha × beta)
    (pages : Nat) : List alpha :=
  ((List.range pages).map (fun i => (fetch (i + 1)).1)).flatten

/-- The category enumeration of the create-post validator
(`body('category').isIn([...])` in the POST `/` route of the posts router). -/
def createCategoryList : List String :=
  ["academic", "project", "research", "study-guide", "tutorial", "internship",
   "part-time", "full-time", "freelance", "research-assistant", "other"]

/-- The category enumeration of the update-post validator
(`body('category').optional().isIn([...])` in PUT `/:postId`). -/
def updateCategoryList : List String :=
  ["academic", "project", "research", "study-guide", "tutorial", "internship",
   "part-time", "full-time", "freelance", "research-assistant", "other"]

/-- The category enumeration of the Post schema
(`category: { enum: [...] }` in the Post model). -/
def schemaCategoryList : List String :=
  ["academic", "project", "research", "internship", "part-time", "full-time",
   "freelance", "other"]

/-- The profile fields PUT `/profile` (users router) reads from the request
body; `none` models an absent field. -/
structure ProfileInput where
  fullName : Option String
  username : Option String
  email : Option String
  university : Option String
  major : Option String
  bio : Option String
deriving Repr, DecidableEq

/-- `suppliedValue || existingValue`: a falsy supplied value (absent field or
empty string) falls back to the stored value. -/
def orFallback (x : Option String) (old : String) : String :=
  match x with
  | none => old
  | some s => if s = "" then old else s

/-- `if (username && username !== req.user.username)` followed by
`User.findOne({ username })`: the update is rejected when a truthy, changed
username already exists in the collection. -/
def usernameTaken (db : UsersDB) (me : UserRec) (x : Option String) : Bool :=
  match x with
  | some u =>
    if u = "" then false
    else if u = me.username then false
    else (db.map Prod.snd).any (fun r => r.username == u)
  | none => false

/-- The same check for the email field. -/
def emailTaken (db : UsersDB) (me : UserRec) (x : Option String) : Bool :=
  match x with
  | some v =>
    if v = "" then false
    else if v = me.email then false
    else (db.map Prod.snd).any (fun r => r.email == v)
  | none => false

/-- PUT `/profile` (users router): reject a taken username or email with 400;
otherwise `findByIdAndUpdate` the caller with `updateData`, each text field
being `supplied || current` (so falsy supplied values keep the stored
value). -/
def updateProfileOp (db : UsersDB) (callerId : String) (inp : ProfileInput) :
    Nat × UsersDB :=
  match dbFind db callerId with
  | none => (401, db)
  | some me =>
    if usernameTaken db me inp.username then (400, db)
    else if emailTaken db me inp.email then (400, db)
    else
      (200, dbUpdate db callerId (fun u =>
        { u with
          fullName := orFallback inp.fullName me.fullName,
          username := orFallback inp.username me.username,
          email := orFallback inp.email me.email,
          university := orFallback inp.university me.university,
          major := orFallback inp.major me.major,
          bio := orFallback inp.bio me.bio }))

/-- A supplied field value that JavaScript treats as falsy: absent or the
empty string. -/
def blankInput (x : Option String) : Prop := x = none ∨ x = some ""

/-- A concrete profile-update body for witness instances: empty strings and
absent fields only. -/
def demoProfileInput : ProfileInput :=
  { fullName := some "", username := none, email := none,
    university := some "", major := none, bio := some "" }


theorem dbFind_dbUpdate_self {α : Type} (db : List (String × α)) (k : String)
    (f : α → α) : dbFind (dbUpdate db k f) k = (dbFind db k).map f := by
  induction db with
  | nil => rfl
  | cons e tl ih =>
    simp only [dbUpdate, List.map_cons] at *
    by_cases h : e.1 = k
    · simp [dbFind, h]
    · simp only [dbFind, if_neg h]
      simpa [dbFind, h] using ih

theorem dbFind_dbUpdate_other {α : Type} (db : List (String × α)) (k k' : String)
    (f : α → α) (h : k' ≠ k) :
    dbFind (dbUpdate db k f) k' = dbFind db k' := by
  induction db with
  | nil => rfl
  | cons e tl ih =>
    simp only [dbUpdate, List.map_cons] at *
    by_cases he : e.1 = k
    · have : ¬ e.1 = k' := by rw [he]; exact fun hh => h hh.symm
      simp [dbFind, he, this, Ne.symm h, ih]
    · by_cases hv : e.1 = k'
      · simp [dbFind, he, hv, h, ih]
      · simp [dbFind, he, hv, ih]

theorem mem_dbUpdate {α : Type} (db : List (String × α)) (k : String)
    (f : α → α) (e : String × α) (he : e ∈ dbUpdate db k f) :
    ∃ e0 ∈ db, e = (if e0.1 = k then (e0.1, f e0.2) else e0) := by
  rcases List.mem_map.1 he with ⟨e0, h0, hmap⟩
  exact ⟨e0, h0, hmap.symm⟩

theorem selfClean_dbUpdate_gen (db : UsersDB) (k : String) (f : UserRec → UserRec)
    (h : selfClean db)
    (hk : ∀ u : UserRec, (k ∉ u.followers → k ∉ (f u).followers) ∧
      (k ∉ u.following → k ∉ (f u).following)) :
    selfClean (dbUpdate db k f) := by
  intro e he
  rcases mem_dbUpdate _ _ _ _ he with ⟨e0, he0, heq⟩
  have h0 := h e0 he0
  by_cases hek : e0.1 = k
  · rw [heq, if_pos hek, hek]
    exact ⟨(hk e0.2).1 (hek ▸ h0.1), (hk e0.2).2 (hek ▸ h0.2)⟩
  · rw [heq, if_neg hek]
    exact h0

theorem followOp_eval (db : UsersDB) (c t : String) (tu cu : UserRec)
    (hct : t ≠ c) (hft : dbFind db t = some tu) (hfc : dbFind db c = some cu) :
    followOp db c t =
      if t ∈ cu.following then
        (200, dbUpdate
          (dbUpdate db c
            (fun u => { u with following := u.following.filter (fun x => x != t) }))
          t (fun u => { u with followers := u.followers.filter (fun x => x != c) }))
      else
        (200, dbUpdate
          (dbUpdate db c (fun u => { u with following := u.following ++ [t] }))
          t (fun u => { u with followers := u.followers ++ [c] })) := by
  unfold followOp
  rw [if_neg hct, hft, hfc]

theorem unfollowOp_eval (db : UsersDB) (c t : String) (tu cu : UserRec)
    (hct : t ≠ c) (hft : dbFind db t = some tu) (hfc : dbFind db c = some cu) :
    unfollowOp db c t =
      if t ∈ cu.following then
        (200, dbUpdate
          (dbUpdate db c
            (fun u => { u with following := u.following.filter (fun x => x != t) }))
          t (fun u => { u with followers := u.followers.filter (fun x => x != c) }))
      else (400, db) := by
  unfold unfollowOp
  rw [if_neg hct, hft, hfc]

theorem selfClean_applyAction (db : UsersDB) (act : FollowAction)
    (h : selfClean db) : selfClean (applyAction db act) := by
  have hpull : ∀ c t : String, selfClean
      (dbUpdate
        (dbUpdate db c
          (fun u => { u with following := u.following.filter (fun x => x != t) }))
        t
        (fun u => { u with followers := u.followers.filter (fun x => x != c) })) := by
    intro c t
    apply selfClean_dbUpdate_gen
    · apply selfClean_dbUpdate_gen _ _ _ h
      intro u
      exact ⟨fun hx => hx, fun hx hmem => hx (List.mem_of_mem_filter hmem)⟩
    · intro u
      exact ⟨fun hx hmem => hx (List.mem_of_mem_filter hmem), fun hx => hx⟩
  have hpush : ∀ c t : String, t ≠ c → selfClean
      (dbUpdate
        (dbUpdate db c
          (fun u => { u with following := u.following ++ [t] }))
        t
        (fun u => { u with followers := u.followers ++ [c] })) := by
    intro c t htc
    apply selfClean_dbUpdate_gen
    · apply selfClean_dbUpdate_gen _ _ _ h
      intro u
      refine ⟨fun hx => hx, fun hx hmem => ?_⟩
      rcases List.mem_append.1 hmem with hl | hr
      · exact hx hl
      · exact htc (List.mem_singleton.1 hr).symm
    · intro u
      refine ⟨fun hx hmem => ?_, fun hx => hx⟩
      rcases List.mem_append.1 hmem with hl | hr
      · exact hx hl
      · exact htc.symm (List.mem_singleton.1 hr).symm
  cases act with
  | follow c t =>
    show selfClean (followOp db c t).2
    by_cases hct : t = c
    · unfold followOp; rw [if_pos hct]; exact h
    · cases hft : dbFind db t with
      | none => unfold followOp; rw [if_neg hct, hft]; exact h
      | some tu =>
        cases hfc : dbFind db c with
        | none => unfold followOp; rw [if_neg hct, hft, hfc]; exact h
        | some cu =>
          rw [followOp_eval db c t tu cu hct hft hfc]
          by_cases hmem : t ∈ cu.following
          · rw [if_pos hmem]; exact hpull c t
          · rw [if_neg hmem]; exact hpush c t hct
  | unfollow c t =>
    show selfClean (unfollowOp db c t).2
    by_cases hct : t = c
    · unfold unfollowOp; rw [if_pos hct]; exact h
    · cases hft : dbFind db t with
      | none => unfold unfollowOp; rw [if_neg hct, hft]; exact h
      | some tu =>
        cases hfc : dbFind db c with
        | none => unfold unfollowOp; rw [if_neg hct, hft, hfc]; exact h
        | some cu =>
          rw [unfollowOp_eval db c t tu cu hct hft hfc]
          by_cases hmem : t ∈ cu.following
          · rw [if_pos hmem]; exact hpull c t
          · rw [if_neg hmem]; exact h

/-- C1: for distinct users `a ≠ b` where both documents exist and `a` does not
already follow `b` (neither mirror side records the relationship), POST
`/:userId/follow` then DELETE `/:userId/follow` both succeed (200) and leave
both users' stored documents — in particular their follower/following
arrays — exactly as they were before the follow. -/
theorem follow_then_unfollow_roundtrip
    (db : UsersDB) (a b : String) (ua ub : UserRec)
    (hne : a ≠ b)
    (hfa : dbFind db a = some ua) (hfb : dbFind db b = some ub)
    (hnf : b ∉ ua.following) (hnl : a ∉ ub.followers) :
    (followOp db a b).1 = 200 ∧
    (unfollowOp (followOp db a b).2 a b).1 = 200 ∧
    dbFind (unfollowOp (followOp db a b).2 a b).2 a = some ua ∧
    dbFind (unfollowOp (followOp db a b).2 a b).2 b = some ub := by
  have hba : b ≠ a := Ne.symm hne
  have e1 : followOp db a b =
      (200, dbUpdate
        (dbUpdate db a (fun u => { u with following := u.following ++ [b] })) b
        (fun u => { u with followers := u.followers ++ [a] })) := by
    rw [followOp_eval db a b ub ua hba hfb hfa, if_neg hnf]
  have e1s : (followOp db a b).2 =
      dbUpdate
        (dbUpdate db a (fun u => { u with following := u.following ++ [b] })) b
        (fun u => { u with followers := u.followers ++ [a] }) := by
    rw [e1]
  have d1a : dbFind (followOp db a b).2 a =
      some { ua with following := ua.following ++ [b] } := by
    rw [e1s, dbFind_dbUpdate_other _ _ _ _ hne, dbFind_dbUpdate_self, hfa]
    rfl
  have d1b : dbFind (followOp db a b).2 b =
      some { ub with followers := ub.followers ++ [a] } := by
    rw [e1s, dbFind_dbUpdate_self, dbFind_dbUpdate_other _ _ _ _ hba, hfb]
    rfl
  have hmem : b ∈ ({ ua with following := ua.following ++ [b] } : UserRec).following := by
    simp
  have e2 : unfollowOp (followOp db a b).2 a b =
      (200, dbUpdate
        (dbUpdate (followOp db a b).2 a
          (fun u => { u with following := u.following.filter (fun x => x != b) })) b
        (fun u => { u with followers := u.followers.filter (fun x => x != a) })) := by
    rw [unfollowOp_eval (followOp db a b).2 a b _ _ hba d1b d1a, if_pos hmem]
  have e2s : (unfollowOp (followOp db a b).2 a b).2 =
      dbUpdate
        (dbUpdate (followOp db a b).2 a
          (fun u => { u with following := u.following.filter (fun x => x != b) })) b
        (fun u => { u with followers := u.followers.filter (fun x => x != a) }) := by
    rw [e2]
  have hfilf : (ua.following ++ [b]).filter (fun x => x != b) = ua.following := by
    rw [List.filter_append]
    have h1 : ua.following.filter (fun x => x != b) = ua.following := by
      apply List.filter_eq_self.mpr
      intro x hx
      simp only [bne_iff_ne, ne_eq, decide_eq_true_eq]
      exact fun hxb => hnf (hxb ▸ hx)
    simp [h1]
  have hfilg : (ub.followers ++ [a]).filter (fun x => x != a) = ub.followers := by
    rw [List.filter_append]
    have h1 : ub.followers.filter (fun x => x != a) = ub.followers := by
      apply List.filter_eq_self.mpr
      intro x hx
      simp only [bne_iff_ne, ne_eq, decide_eq_true_eq]
      exact fun hxa => hnl (hxa ▸ hx)
    simp [h1]
  refine ⟨by rw [e1], by rw [e2], ?_, ?_⟩
  · rw [e2s, dbFind_dbUpdate_other _ _ _ _ hne, dbFind_dbUpdate_self, d1a]
    have hrec : ({ ua with following := (ua.following ++ [b]).filter (fun x => x != b) }
        : UserRec) = ua := by
      rw [hfilf]
    exact congrArg some hrec
  · rw [e2s, dbFind_dbUpdate_self, dbFind_dbUpdate_other _ _ _ _ hba, d1b]
    have hrec : ({ ub with followers := (ub.followers ++ [a]).filter (fun x => x != a) }
        : UserRec) = ub := by
      rw [hfilg]
    exact congrArg some hrec

/-- C2: starting from a state in which no user appears in their own
followers/following arrays, any sequence of follow/unfollow requests
preserves that invariant, and a follow or unfollow whose target equals the
caller is rejected with status 400 before any mutation (the state is returned
unchanged). -/
theorem no_self_follow_invariant
    (db : UsersDB) (acts : List FollowAction) (h : selfClean db) :
    selfClean (runActions db acts) ∧
    (∀ u : String, followOp db u u = (400, db) ∧ unfollowOp db u u = (400, db)) := by
  constructor
  · induction acts generalizing db with
    | nil => exact h
    | cons a tl ih =>
      show selfClean (runActions (applyAction db a) tl)
      exact ih _ (selfClean_applyAction db a h)
  · intro u
    constructor
    · unfold followOp; rw [if_pos rfl]
    · unfold unfollowOp; rw [if_pos rfl]

/-- Witness for C1: on a concrete two-user database, following then
unfollowing restores both documents. -/
theorem follow_then_unfollow_roundtrip_witness :
    (followOp demoUsersDB "idA" "idB").1 = 200 ∧
    (unfollowOp (followOp demoUsersDB "idA" "idB").2 "idA" "idB").1 = 200 ∧
    dbFind (unfollowOp (followOp demoUsersDB "idA" "idB").2 "idA" "idB").2 "idA"
      = some demoUserA ∧
    dbFind (unfollowOp (followOp demoUsersDB "idA" "idB").2 "idA" "idB").2 "idB"
      = some demoUserB :=
  follow_then_unfollow_roundtrip demoUsersDB "idA" "idB" demoUserA demoUserB
    (by decide) (by decide) (by decide) (by decide) (by decide)

/-- Witness for C2: the invariant survives a concrete follow/unfollow
sequence, and a concrete self-follow and self-unfollow are 400 no-ops. -/
theorem no_self_follow_invariant_witness :
    selfClean (runActions demoUsersDB
      [FollowAction.follow "idA" "idB", FollowAction.unfollow "idA" "idB"]) ∧
    followOp demoUsersDB "idA" "idA" = (400, demoUsersDB) ∧
    unfollowOp demoUsersDB "idA" "idA" = (400, demoUsersDB) :=
  ⟨(no_self_follow_invariant demoUsersDB
      [FollowAction.follow "idA" "idB", FollowAction.unfollow "idA" "idB"]
      (by decide)).1,
    (no_self_follow_invariant demoUsersDB [] (by decide)).2 "idA"⟩

/-- C3: a successful GET `/:postId` returns 200 and increases exactly that
post's `views` by exactly 1 (hence the counter never decreases), leaving all
other posts untouched; the stored result is the same whatever the caller
identity is; and a GET for a nonexistent id returns 404 and leaves the
collection unchanged. -/
theorem get_post_increments_views (db : PostsDB) (caller : Option String)
    (pid : String) :
    (∀ p : PostRec, dbFind db pid = some p →
      (getPostOp db caller pid).1 = 200 ∧
      dbFind (getPostOp db caller pid).2 pid = some { p with views := p.views + 1 } ∧
      ∀ q : String, q ≠ pid → dbFind (getPostOp db caller pid).2 q = dbFind db q) ∧
    (dbFind db pid = none → getPostOp db caller pid = (404, db)) ∧
    (∀ caller2 : Option String,
      (getPostOp db caller pid).2 = (getPostOp db caller2 pid).2) := by
  refine ⟨?_, ?_, ?_⟩
  · intro p hp
    have he : getPostOp db caller pid =
        (200, dbUpdate db pid (fun q => { q with views := q.views + 1 })) := by
      unfold getPostOp
      rw [hp]
    refine ⟨by rw [he], ?_, ?_⟩
    · have : (getPostOp db caller pid).2 =
          dbUpdate db pid (fun q => { q with views := q.views + 1 }) := by rw [he]
      rw [this, dbFind_dbUpdate_self, hp]
      rfl
    · intro q hq
      have : (getPostOp db caller pid).2 =
          dbUpdate db pid (fun r => { r with views := r.views + 1 }) := by rw [he]
      rw [this, dbFind_dbUpdate_other _ _ _ _ hq]
  · intro hp
    unfold getPostOp
    rw [hp]
  · intro caller2
    unfold getPostOp
    cases dbFind db pid <;> rfl

/-- Witness for C3: fetching the concrete demo post bumps `views` to 1,
leaves other ids alone, and a missing id is a 404 no-op. -/
theorem get_post_increments_views_witness :
    (getPostOp demoPostsDB (some "idB") "p1").1 = 200 ∧
    dbFind (getPostOp demoPostsDB (some "idB") "p1").2 "p1"
      = some { demoPost with views := demoPost.views + 1 } ∧
    getPostOp demoPostsDB none "p2" = (404, demoPostsDB) := by
  have h := get_post_increments_views demoPostsDB (some "idB") "p1"
  have h1 := h.1 demoPost (by decide)
  have h2 := (get_post_increments_views demoPostsDB none "p2").2.1 (by decide)
  exact ⟨h1.1, h1.2.1, h2⟩


theorem count_filter_ne_self (l : List String) (x : String) :
    (l.filter (fun y => y != x)).count x = 0 := by
  apply List.count_eq_zero.mpr
  intro hmem
  have := List.of_mem_filter hmem
  simp at this

theorem mem_filter_ne_self (l : List String) (x : String) :
    x ∉ l.filter (fun y => y != x) := by
  intro hmem
  have := List.of_mem_filter hmem
  simp at this

theorem likePostOp_eval (db : PostsDB) (caller pid : String) (p : PostRec)
    (hp : dbFind db pid = some p) :
    likePostOp db caller pid =
      if caller ∈ p.likes then
        (200, dbUpdate db pid
          (fun q => { q with likes := q.likes.filter (fun x => x != caller) }),
          some false)
      else
        (200, dbUpdate db pid (fun q => { q with likes := q.likes ++ [caller] }),
          some true) := by
  unfold likePostOp
  rw [hp]

theorem likeCommentOp_eval (db : CommentsDB) (caller cid : String)
    (c : CommentRec) (hc : dbFind db cid = some c) :
    likeCommentOp db caller cid =
      if caller ∈ c.likes then
        (200, dbUpdate db cid
          (fun q => { q with likes := q.likes.filter (fun x => x != caller) }),
          some false)
      else
        (200, dbUpdate db cid (fun q => { q with likes := q.likes ++ [caller] }),
          some true) := by
  unfold likeCommentOp
  rw [hc]

/-- C4: like on a post or a comment toggles membership of the caller's id in
`likes`: a caller not present is appended exactly once (`liked: true`, its
occurrence count becomes 1), a caller already present is removed entirely
(`liked: false`), and after two consecutive like calls by the same caller the
caller's id occurs at most once in `likes` — never duplicated. -/
theorem like_toggles_membership
    (dbp : PostsDB) (dbc : CommentsDB) (caller pid cid : String)
    (p : PostRec) (c : CommentRec)
    (hp : dbFind dbp pid = some p) (hc : dbFind dbc cid = some c) :
    ((caller ∉ p.likes →
        (likePostOp dbp caller pid).2.2 = some true ∧
        dbFind (likePostOp dbp caller pid).2.1 pid
          = some { p with likes := p.likes ++ [caller] } ∧
        (p.likes ++ [caller]).count caller = 1) ∧
      (caller ∈ p.likes →
        (likePostOp dbp caller pid).2.2 = some false ∧
        dbFind (likePostOp dbp caller pid).2.1 pid
          = some { p with likes := p.likes.filter (fun x => x != caller) } ∧
        caller ∉ p.likes.filter (fun x => x != caller)) ∧
      (∀ q : PostRec,
        dbFind (likePostOp (likePostOp dbp caller pid).2.1 caller pid).2.1 pid
          = some q → q.likes.count caller ≤ 1)) ∧
    ((caller ∉ c.likes →
        (likeCommentOp dbc caller cid).2.2 = some true ∧
        dbFind (likeCommentOp dbc caller cid).2.1 cid
          = some { c with likes := c.likes ++ [caller] } ∧
        (c.likes ++ [caller]).count caller = 1) ∧
      (caller ∈ c.likes →
        (likeCommentOp dbc caller cid).2.2 = some false ∧
        dbFind (likeCommentOp dbc caller cid).2.1 cid
          = some { c with likes := c.likes.filter (fun x => x != caller) } ∧
        caller ∉ c.likes.filter (fun x => x != caller))) := by
  refine ⟨⟨?_, ?_, ?_⟩, ?_, ?_⟩
  · intro hnm
    have he := likePostOp_eval dbp caller pid p hp
    rw [if_neg hnm] at he
    refine ⟨by rw [he], ?_, ?_⟩
    · have h1 : (likePostOp dbp caller pid).2.1 =
          dbUpdate dbp pid (fun q => { q with likes := q.likes ++ [caller] }) := by
        rw [he]
      rw [h1, dbFind_dbUpdate_self, hp]
      rfl
    · rw [List.count_append, List.count_eq_zero.mpr hnm]
      simp
  · intro hm
    have he := likePostOp_eval dbp caller pid p hp
    rw [if_pos hm] at he
    refine ⟨by rw [he], ?_, mem_filter_ne_self _ _⟩
    have h1 : (likePostOp dbp caller pid).2.1 =
        dbUpdate dbp pid
          (fun q => { q with likes := q.likes.filter (fun x => x != caller) }) := by
      rw [he]
    rw [h1, dbFind_dbUpdate_self, hp]
    rfl
  · intro q hq
    by_cases hm : caller ∈ p.likes
    · -- first call removes, second call appends once
      have he := likePostOp_eval dbp caller pid p hp
      rw [if_pos hm] at he
      have h1 : (likePostOp dbp caller pid).2.1 =
          dbUpdate dbp pid
            (fun r => { r with likes := r.likes.filter (fun x => x != caller) }) := by
        rw [he]
      have hfind1 : dbFind (likePostOp dbp caller pid).2.1 pid
          = some { p with likes := p.likes.filter (fun x => x != caller) } := by
        rw [h1, dbFind_dbUpdate_self, hp]
        rfl
      have hnm2 : caller ∉
          ({ p with likes := p.likes.filter (fun x => x != caller) } : PostRec).likes :=
        mem_filter_ne_self _ _
      have he2 := likePostOp_eval (likePostOp dbp caller pid).2.1 caller pid _ hfind1
      rw [if_neg hnm2] at he2
      have h2 : (likePostOp (likePostOp dbp caller pid).2.1 caller pid).2.1 =
          dbUpdate (likePostOp dbp caller pid).2.1 pid
            (fun r => { r with likes := r.likes ++ [caller] }) := by
        rw [he2]
      rw [h2, dbFind_dbUpdate_self, hfind1] at hq
      have hqe : q = { p with
          likes := p.likes.filter (fun x => x != caller) ++ [caller] } :=
        (Option.some.inj hq).symm
      rw [hqe]
      show (p.likes.filter (fun x => x != caller) ++ [caller]).count caller ≤ 1
      rw [List.count_append, count_filter_ne_self]
      simp
    · -- first call appends, second call removes everything
      have he := likePostOp_eval dbp caller pid p hp
      rw [if_neg hm] at he
      have h1 : (likePostOp dbp caller pid).2.1 =
          dbUpdate dbp pid (fun r => { r with likes := r.likes ++ [caller] }) := by
        rw [he]
      have hfind1 : dbFind (likePostOp dbp caller pid).2.1 pid
          = some { p with likes := p.likes ++ [caller] } := by
        rw [h1, dbFind_dbUpdate_self, hp]
        rfl
      have hm2 : caller ∈ ({ p with likes := p.likes ++ [caller] } : PostRec).likes := by
        simp
      have he2 := likePostOp_eval (likePostOp dbp caller pid).2.1 caller pid _ hfind1
      rw [if_pos hm2] at he2
      have h2 : (likePostOp (likePostOp dbp caller pid).2.1 caller pid).2.1 =
          dbUpdate (likePostOp dbp caller pid).2.1 pid
            (fun r => { r with likes := r.likes.filter (fun x => x != caller) }) := by
        rw [he2]
      rw [h2, dbFind_dbUpdate_self, hfind1] at hq
      have hqe : q = { p with
          likes := (p.likes ++ [caller]).filter (fun x => x != caller) } :=
        (Option.some.inj hq).symm
      rw [hqe]
      show ((p.likes ++ [caller]).filter (fun x => x != caller)).count caller ≤ 1
      rw [count_filter_ne_self]
      simp
  · intro hnm
    have he := likeCommentOp_eval dbc caller cid c hc
    rw [if_neg hnm] at he
    refine ⟨by rw [he], ?_, ?_⟩
    · have h1 : (likeCommentOp dbc caller cid).2.1 =
          dbUpdate dbc cid (fun q => { q with likes := q.likes ++ [caller] }) := by
        rw [he]
      rw [h1, dbFind_dbUpdate_self, hc]
      rfl
    · rw [List.count_append, List.count_eq_zero.mpr hnm]
      simp
  · intro hm
    have he := likeCommentOp_eval dbc caller cid c hc
    rw [if_pos hm] at he
    refine ⟨by rw [he], ?_, mem_filter_ne_self _ _⟩
    have h1 : (likeCommentOp dbc caller cid).2.1 =
        dbUpdate dbc cid
          (fun q => { q with likes := q.likes.filter (fun x => x != caller) }) := by
      rw [he]
    rw [h1, dbFind_dbUpdate_self, hc]
    rfl

/-- Witness for C4: on the concrete demo post and comment, a first like by
"idB" appends once and reports `liked: true`, and two consecutive likes leave
no duplicate. -/
theorem like_toggles_membership_witness :
    ((likePostOp demoPostsDB "idB" "p1").2.2 = some true ∧
      dbFind (likePostOp demoPostsDB "idB" "p1").2.1 "p1"
        = some { demoPost with likes := demoPost.likes ++ ["idB"] } ∧
      (demoPost.likes ++ ["idB"]).count "idB" = 1) ∧
    (likeCommentOp demoCommentsDB "idB" "c1").2.2 = some true := by
  have h := like_toggles_membership demoPostsDB demoCommentsDB "idB" "p1" "c1"
    demoPost demoComment (by decide) (by decide)
  exact ⟨h.1.1 (by decide), (h.2.1 (by decide)).1⟩

theorem dbFind_mem {α : Type} : ∀ (db : List (String × α)) (k : String) (v : α),
    dbFind db k = some v → (k, v) ∈ db := by
  intro db
  induction db with
  | nil => intro k v h; simp [dbFind] at h
  | cons e tl ih =>
    intro k v h
    by_cases hk : e.1 = k
    · simp only [dbFind, if_pos hk] at h
      have hv : e.2 = v := Option.some.inj h
      have he : e = (k, v) := by
        cases e
        simp_all
      rw [he]
      exact List.mem_cons_self _ _
    · simp only [dbFind, if_neg hk] at h
      exact List.mem_cons_of_mem e (ih k v h)

theorem normalizeParentId_some (pc : String) (h : pc ≠ "") :
    normalizeParentId (some pc) = some pc := by
  show (if pc = "" then (none : Option String) else some pc) = some pc
  rw [if_neg h]

theorem deleteCommentOp_eval0 (s : Store) (caller cid : String) (c : CommentRec)
    (h1 : dbFind s.comments cid = some c) :
    deleteCommentOp s caller cid =
      if c.author ≠ caller then (403, s)
      else
        (200,
          { posts := dbUpdate s.posts c.post
              (fun p => { p with comments := p.comments.filter (fun x => x != cid) }),
            comments := dbDeleteId
              ((match c.parentComment with
                | some pc => dbUpdate s.comments pc
                    (fun q => { q with replies := q.replies.filter (fun x => x != cid) })
                | none => s.comments).filter
                  (fun e => e.2.parentComment != some cid))
              cid }) := by
  unfold deleteCommentOp
  rw [h1]

/-- C5: deleting a comment (by its author) succeeds with 200, removes the
comment's record and the record of every one of its replies from the comments
collection, pulls the comment's id from its post's `comments` array, and —
when the comment is itself a reply — leaves no surviving parent record that
still lists it among `replies`; and invoking the posts-router variant
`DELETE /:postId/comments/:commentId` with the comment's own post id performs
exactly the same state change. -/
theorem delete_comment_cascades
    (s : Store) (caller cid : String) (c : CommentRec)
    (h1 : dbFind s.comments cid = some c) (h2 : c.author = caller) :
    (deleteCommentOp s caller cid).1 = 200 ∧
    (∀ e ∈ (deleteCommentOp s caller cid).2.comments,
      e.1 ≠ cid ∧ e.2.parentComment ≠ some cid) ∧
    (∀ p : PostRec, dbFind s.posts c.post = some p →
      dbFind (deleteCommentOp s caller cid).2.posts c.post
        = some { p with comments := p.comments.filter (fun x => x != cid) } ∧
      cid ∉ p.comments.filter (fun x => x != cid)) ∧
    (∀ pc : String, ∀ q : CommentRec, c.parentComment = some pc →
      dbFind (deleteCommentOp s caller cid).2.comments pc = some q →
      cid ∉ q.replies) ∧
    deleteCommentUnderPostOp s caller c.post cid = deleteCommentOp s caller cid := by
  have he0 := deleteCommentOp_eval0 s caller cid c h1
  rw [if_neg (fun hne => hne h2)] at he0
  refine ⟨by rw [he0], ?_, ?_, ?_, ?_⟩
  · intro e he
    have hcomm : (deleteCommentOp s caller cid).2.comments = dbDeleteId
        ((match c.parentComment with
          | some pc => dbUpdate s.comments pc
              (fun q => { q with replies := q.replies.filter (fun x => x != cid) })
          | none => s.comments).filter
            (fun e => e.2.parentComment != some cid))
        cid := by
      rw [he0]
    rw [hcomm] at he
    simp only [dbDeleteId] at he
    constructor
    · have := List.of_mem_filter he
      simpa using this
    · have he2 := List.mem_of_mem_filter he
      have := List.of_mem_filter he2
      simpa using this
  · intro p hp
    have hposts : (deleteCommentOp s caller cid).2.posts =
        dbUpdate s.posts c.post
          (fun p => { p with comments := p.comments.filter (fun x => x != cid) }) := by
      rw [he0]
    rw [hposts, dbFind_dbUpdate_self, hp]
    exact ⟨rfl, mem_filter_ne_self _ _⟩
  · intro pc q hpc hq
    have hcomm : (deleteCommentOp s caller cid).2.comments = dbDeleteId
        ((dbUpdate s.comments pc
            (fun r => { r with replies := r.replies.filter (fun x => x != cid) })).filter
          (fun e => e.2.parentComment != some cid))
        cid := by
      rw [he0, hpc]
    rw [hcomm] at hq
    have hmem := dbFind_mem _ _ _ hq
    simp only [dbDeleteId] at hmem
    have hmem1 : (pc, q) ∈ dbUpdate s.comments pc
        (fun r => { r with replies := r.replies.filter (fun x => x != cid) }) :=
      List.mem_of_mem_filter (List.mem_of_mem_filter hmem)
    rcases mem_dbUpdate _ _ _ _ hmem1 with ⟨e0, he0m, heq⟩
    by_cases hk : e0.1 = pc
    · rw [if_pos hk] at heq
      have hqv : q = { e0.2 with
          replies := e0.2.replies.filter (fun x => x != cid) } :=
        congrArg Prod.snd heq
      rw [hqv]
      exact mem_filter_ne_self _ _
    · rw [if_neg hk] at heq
      exact absurd (congrArg Prod.fst heq).symm hk
  · unfold deleteCommentUnderPostOp deleteCommentOp
    rw [h1]

/-- Witness for C5: deleting the concrete demo comment (which has one reply)
removes both records, pulls it from the post's comment list, and the
posts-router variant agrees. -/
theorem delete_comment_cascades_witness :
    (deleteCommentOp demoStore "idA" "c1").1 = 200 ∧
    dbFind (deleteCommentOp demoStore "idA" "c1").2.posts "p1"
      = some { { demoPost with comments := ["c1", "r1"] } with
          comments := (["c1", "r1"] : List String).filter (fun x => x != "c1") } ∧
    deleteCommentUnderPostOp demoStore "idA" "p1" "c1"
      = deleteCommentOp demoStore "idA" "c1" := by
  have h := delete_comment_cascades demoStore "idA" "c1"
    { demoComment with replies := ["r1"] } (by decide) (by decide)
  exact ⟨h.1, (h.2.2.1 { demoPost with comments := ["c1", "r1"] } (by decide)).1,
    h.2.2.2.2⟩

/-- C9: the cascade of DELETE `/:commentId` pulls only the deleted comment's
own id from its post's `comments` array — the array becomes exactly its old
value with that one id filtered out, so every other element (including the
ids of the now-deleted replies) survives in order — while no record with this
comment as parent survives in the comments collection, leaving those
remaining reply ids dangling; and creating a reply does `$push` its id onto
the post's `comments` array, which is how those ids got there. -/
theorem delete_comment_dangling_reply_refs
    (s : Store) (caller cid : String) (c : CommentRec) (p : PostRec)
    (h1 : dbFind s.comments cid = some c) (h2 : c.author = caller)
    (h3 : dbFind s.posts c.post = some p) :
    dbFind (deleteCommentOp s caller cid).2.posts c.post
      = some { p with comments := p.comments.filter (fun x => x != cid) } ∧
    (∀ rid ∈ p.comments, rid ≠ cid →
      rid ∈ p.comments.filter (fun x => x != cid)) ∧
    (∀ e ∈ (deleteCommentOp s caller cid).2.comments,
      e.2.parentComment ≠ some cid) ∧
    (∀ (s0 : Store) (caller0 newId pid content pc : String) (now : Nat)
      (p0 : PostRec) (c0 : CommentRec),
      ¬(content = "" ∨ content.length > 1000 ∨ pid = "") → pc ≠ "" →
      dbFind s0.posts pid = some p0 → dbFind s0.comments pc = some c0 →
      (createCommentOp s0 caller0 newId pid content (some pc) now).1 = 201 ∧
      dbFind (createCommentOp s0 caller0 newId pid content (some pc) now).2.posts pid
        = some { p0 with comments := p0.comments ++ [newId] }) := by
  have he0 := deleteCommentOp_eval0 s caller cid c h1
  rw [if_neg (fun hne => hne h2)] at he0
  refine ⟨?_, ?_, ?_, ?_⟩
  · have hposts : (deleteCommentOp s caller cid).2.posts =
        dbUpdate s.posts c.post
          (fun p => { p with comments := p.comments.filter (fun x => x != cid) }) := by
      rw [he0]
    rw [hposts, dbFind_dbUpdate_self, h3]
    rfl
  · intro rid hmem hne
    apply List.mem_filter.mpr
    exact ⟨hmem, by simpa using hne⟩
  · intro e he
    have hcomm : (deleteCommentOp s caller cid).2.comments = dbDeleteId
        ((match c.parentComment with
          | some pc => dbUpdate s.comments pc
              (fun q => { q with replies := q.replies.filter (fun x => x != cid) })
          | none => s.comments).filter
            (fun e => e.2.parentComment != some cid))
        cid := by
      rw [he0]
    rw [hcomm] at he
    simp only [dbDeleteId] at he
    have he2 := List.mem_of_mem_filter he
    have := List.of_mem_filter he2
    simpa using this
  · intro s0 caller0 newId pid content pc now p0 c0 hval hpc hp0 hc0
    have he : createCommentOp s0 caller0 newId pid content (some pc) now =
        (201,
          { posts := dbUpdate s0.posts pid
              (fun p => { p with comments := p.comments ++ [newId] }),
            comments := dbUpdate
              (s0.comments ++ [(newId,
                { author := caller0, post := pid, content := content,
                  parentComment := some pc, replies := [], likes := [],
                  createdAt := now })])
              pc (fun q => { q with replies := q.replies ++ [newId] }) }) := by
      simp only [createCommentOp, if_neg hval, hp0, normalizeParentId_some pc hpc, hc0]
    refine ⟨by rw [he], ?_⟩
    have hposts : (createCommentOp s0 caller0 newId pid content (some pc) now).2.posts =
        dbUpdate s0.posts pid
          (fun p => { p with comments := p.comments ++ [newId] }) := by
      rw [he]
    rw [hposts, dbFind_dbUpdate_self, hp0]
    rfl

/-- Witness for C9: after deleting the demo comment "c1", the reply id "r1"
is still listed in the post's `comments` array even though the reply record
is gone; and creating the reply had pushed "r1" onto that array. -/
theorem delete_comment_dangling_reply_refs_witness :
    dbFind (deleteCommentOp demoStore "idA" "c1").2.posts "p1"
      = some { { demoPost with comments := ["c1", "r1"] } with
          comments := (["c1", "r1"] : List String).filter (fun x => x != "c1") } ∧
    (createCommentOp demoStoreBase "idB" "r1" "p1" "thanks!" (some "c1") 2).1 = 201 ∧
    dbFind
      (createCommentOp demoStoreBase "idB" "r1" "p1" "thanks!" (some "c1") 2).2.posts
      "p1"
      = some { { demoPost with comments := ["c1"] } with
          comments := (["c1"] : List String) ++ ["r1"] } := by
  have h := delete_comment_dangling_reply_refs demoStore "idA" "c1"
    { demoComment with replies := ["r1"] } { demoPost with comments := ["c1", "r1"] }
    (by decide) (by decide) (by decide)
  have hcreate := h.2.2.2 demoStoreBase "idB" "r1" "p1" "thanks!" "c1" 2
    { demoPost with comments := ["c1"] } demoComment
    (by decide) (by decide) (by decide) (by decide)
  exact ⟨h.1, hcreate.1, hcreate.2⟩

theorem le_jsCeilDiv_mul (a b : Nat) (h : 1 ≤ b) : a ≤ jsCeilDiv a b * b := by
  have hd := Nat.div_add_mod (a + b - 1) b
  have hr : (a + b - 1) % b < b := Nat.mod_lt _ h
  have hc : jsCeilDiv a b * b = b * ((a + b - 1) / b) := Nat.mul_comm _ _
  omega

theorem jsCeilDiv_le (a b k : Nat) (h : 1 ≤ b) (hk : a ≤ k * b) :
    jsCeilDiv a b ≤ k := by
  have h2 : (a + b - 1) / b ≤ (b - 1 + k * b) / b := by
    apply Nat.div_le_div_right
    omega
  have h3 : (b - 1 + k * b) / b = (b - 1) / b + k := Nat.add_mul_div_right _ _ h
  have h4 : (b - 1) / b = 0 := Nat.div_eq_of_lt (by omega)
  show (a + b - 1) / b ≤ k
  omega

theorem insertSorted_perm {alpha : Type} (le : alpha → alpha → Bool) (x : alpha)
    (l : List alpha) : (insertSorted le x l).Perm (x :: l) := by
  induction l with
  | nil => exact List.Perm.refl _
  | cons y ys ih =>
    show (if le x y then x :: y :: ys else y :: insertSorted le x ys).Perm
      (x :: y :: ys)
    by_cases h : le x y = true
    · rw [if_pos h]
    · rw [if_neg h]
      exact (ih.cons y).trans (List.Perm.swap x y ys)

theorem sortBy_perm {alpha : Type} (le : alpha → alpha → Bool) (l : List alpha) :
    (sortBy le l).Perm l := by
  induction l with
  | nil => exact List.Perm.refl _
  | cons y ys ih =>
    show (insertSorted le y (sortBy le ys)).Perm (y :: ys)
    exact (insertSorted_perm le y (sortBy le ys)).trans (ih.cons y)

theorem paginate_flatten {alpha : Type} (l : List alpha) (limit : Nat)
    (h : 1 ≤ limit) :
    ((List.range (jsCeilDiv l.length limit)).map
      (fun i => paginate l (i + 1) limit)).flatten = l := by
  have key : ∀ n : Nat, ((List.range n).map
      (fun i => paginate l (i + 1) limit)).flatten = l.take (n * limit) := by
    intro n
    induction n with
    | zero => simp
    | succ m ih =>
      rw [List.range_succ, List.map_append, List.flatten_append, ih]
      simp only [List.map_cons, List.map_nil, List.flatten_cons, List.flatten_nil,
        List.append_nil]
      show l.take (m * limit) ++ (l.drop ((m + 1 - 1) * limit)).take limit
        = l.take ((m + 1) * limit)
      rw [Nat.add_sub_cancel, Nat.succ_mul, List.take_add]
  rw [key]
  exact List.take_of_length_le (le_jsCeilDiv_mul _ _ h)

theorem paging_complete {alpha : Type} (full sorted : List alpha) (limit : Nat)
    (h : 1 ≤ limit) (hperm : sorted.Perm full) :
    (full.length ≤ jsCeilDiv full.length limit * limit ∧
      ∀ k, full.length ≤ k * limit → jsCeilDiv full.length limit ≤ k) ∧
    ((List.range (jsCeilDiv full.length limit)).map
      (fun i => paginate sorted (i + 1) limit)).flatten = sorted ∧
    sorted.length = full.length ∧
    (full.Nodup → sorted.Nodup) := by
  refine ⟨⟨le_jsCeilDiv_mul _ _ h, fun k hk => jsCeilDiv_le _ _ k h hk⟩, ?_,
    hperm.length_eq, fun hnd => hperm.nodup_iff.mpr hnd⟩
  rw [← hperm.length_eq]
  exact paginate_flatten sorted limit h

/-- C6: for every listing endpoint (posts list, users list, liked posts,
user's posts, comments-by-post, replies-by-comment) and fixed collection
state, with a positive `limit`: the reported `pages` is exactly
`ceil(total / limit)` (characterised as the least `k` with
`total ≤ k * limit`), and concatenating the record lists of pages
`1 .. pages` in order yields exactly the endpoint's full result set — a
permutation of the documents matching the query, of length `total`, with no
omissions and (for a duplicate-free collection) no duplicates. -/
theorem pagination_invariant :
    (∀ (db : PostsDB) (limit : Nat) (qt qc qa qs : String), 1 ≤ limit →
      ((listPostsOp db 1 limit qt qc qa qs).2.total ≤
          (listPostsOp db 1 limit qt qc qa qs).2.pages * limit ∧
        ∀ k, (listPostsOp db 1 limit qt qc qa qs).2.total ≤ k * limit →
          (listPostsOp db 1 limit qt qc qa qs).2.pages ≤ k) ∧
      pagesConcat (fun pg => listPostsOp db pg limit qt qc qa qs)
          (listPostsOp db 1 limit qt qc qa qs).2.pages
        = listPostsResultSet db qt qc qa qs ∧
      (listPostsResultSet db qt qc qa qs).Perm
        (db.filter (fun e => postsQueryMatch e.2 qt qc qa qs)) ∧
      (listPostsResultSet db qt qc qa qs).length
        = (listPostsOp db 1 limit qt qc qa qs).2.total ∧
      (db.Nodup →
        (pagesConcat (fun pg => listPostsOp db pg limit qt qc qa qs)
          (listPostsOp db 1 limit qt qc qa qs).2.pages).Nodup)) ∧
    (∀ (db : UsersDB) (limit : Nat) (qs qu qm : String), 1 ≤ limit →
      ((listUsersOp db 1 limit qs qu qm).2.total ≤
          (listUsersOp db 1 limit qs qu qm).2.pages * limit ∧
        ∀ k, (listUsersOp db 1 limit qs qu qm).2.total ≤ k * limit →
          (listUsersOp db 1 limit qs qu qm).2.pages ≤ k) ∧
      pagesConcat (fun pg => listUsersOp db pg limit qs qu qm)
          (listUsersOp db 1 limit qs qu qm).2.pages
        = listUsersResultSet db qs qu qm ∧
      (listUsersResultSet db qs qu qm).Perm
        (db.filter (fun e => usersQueryMatch e.2 qs qu qm)) ∧
      (listUsersResultSet db qs qu qm).length
        = (listUsersOp db 1 limit qs qu qm).2.total) ∧
    (∀ (db : PostsDB) (callerId : String) (limit : Nat), 1 ≤ limit →
      ((likedPostsOp db callerId 1 limit).2.total ≤
          (likedPostsOp db callerId 1 limit).2.pages * limit ∧
        ∀ k, (likedPostsOp db callerId 1 limit).2.total ≤ k * limit →
          (likedPostsOp db callerId 1 limit).2.pages ≤ k) ∧
      pagesConcat (fun pg => likedPostsOp db callerId pg limit)
          (likedPostsOp db callerId 1 limit).2.pages
        = likedPostsResultSet db callerId ∧
      (likedPostsResultSet db callerId).Perm
        (db.filter (fun e => likedQueryMatch e.2 callerId)) ∧
      (likedPostsResultSet db callerId).length
        = (likedPostsOp db callerId 1 limit).2.total) ∧
    (∀ (db : PostsDB) (caller : Option String) (uid qtype : String)
      (limit : Nat), 1 ≤ limit →
      ((userPostsOp db caller uid 1 limit qtype).2.total ≤
          (userPostsOp db caller uid 1 limit qtype).2.pages * limit ∧
        ∀ k, (userPostsOp db caller uid 1 limit qtype).2.total ≤ k * limit →
          (userPostsOp db caller uid 1 limit qtype).2.pages ≤ k) ∧
      pagesConcat (fun pg => userPostsOp db caller uid pg limit qtype)
          (userPostsOp db caller uid 1 limit qtype).2.pages
        = userPostsResultSet db caller uid qtype ∧
      (userPostsResultSet db caller uid qtype).Perm
        (db.filter (fun e => userPostsQueryMatch e.2 uid qtype
          (userPostsRequirePublic caller uid))) ∧
      (userPostsResultSet db caller uid qtype).length
        = (userPostsOp db caller uid 1 limit qtype).2.total) ∧
    (∀ (db : CommentsDB) (pid : String) (limit : Nat), 1 ≤ limit →
      ((commentsByPostOp db pid 1 limit).2.total ≤
          (commentsByPostOp db pid 1 limit).2.pages * limit ∧
        ∀ k, (commentsByPostOp db pid 1 limit).2.total ≤ k * limit →
          (commentsByPostOp db pid 1 limit).2.pages ≤ k) ∧
      pagesConcat (fun pg => commentsByPostOp db pid pg limit)
          (commentsByPostOp db pid 1 limit).2.pages
        = commentsByPostResultSet db pid ∧
      (commentsByPostResultSet db pid).Perm
        (db.filter (fun e => commentsByPostMatch e.2 pid)) ∧
      (commentsByPostResultSet db pid).length
        = (commentsByPostOp db pid 1 limit).2.total) ∧
    (∀ (db : CommentsDB) (cid : String) (limit : Nat), 1 ≤ limit →
      ((repliesOp db cid 1 limit).2.total ≤
          (repliesOp db cid 1 limit).2.pages * limit ∧
        ∀ k, (repliesOp db cid 1 limit).2.total ≤ k * limit →
          (repliesOp db cid 1 limit).2.pages ≤ k) ∧
      pagesConcat (fun pg => repliesOp db cid pg limit)
          (repliesOp db cid 1 limit).2.pages
        = repliesResultSet db cid ∧
      (repliesResultSet db cid).Perm
        (db.filter (fun e => repliesMatch e.2 cid)) ∧
      (repliesResultSet db cid).length
        = (repliesOp db cid 1 limit).2.total) := by
  refine ⟨?_, ?_, ?_, ?_, ?_, ?_⟩
  · intro db limit qt qc qa qs h
    have hperm : (listPostsResultSet db qt qc qa qs).Perm
        (db.filter (fun e => postsQueryMatch e.2 qt qc qa qs)) :=
      sortBy_perm _ _
    have hmain := paging_complete
      (db.filter (fun e => postsQueryMatch e.2 qt qc qa qs))
      (listPostsResultSet db qt qc qa qs) limit h hperm
    refine ⟨⟨hmain.1.1, hmain.1.2⟩, hmain.2.1, hperm, hmain.2.2.1, ?_⟩
    intro hnd
    have hconcat : pagesConcat (fun pg => listPostsOp db pg limit qt qc qa qs)
        (listPostsOp db 1 limit qt qc qa qs).2.pages
        = listPostsResultSet db qt qc qa qs := hmain.2.1
    rw [hconcat]
    exact hperm.nodup_iff.mpr (hnd.filter _)
  · intro db limit qs qu qm h
    have hperm : (listUsersResultSet db qs qu qm).Perm
        (db.filter (fun e => usersQueryMatch e.2 qs qu qm)) :=
      sortBy_perm _ _
    have hmain := paging_complete
      (db.filter (fun e => usersQueryMatch e.2 qs qu qm))
      (listUsersResultSet db qs qu qm) limit h hperm
    exact ⟨⟨hmain.1.1, hmain.1.2⟩, hmain.2.1, hperm, hmain.2.2.1⟩
  · intro db callerId limit h
    have hperm : (likedPostsResultSet db callerId).Perm
        (db.filter (fun e => likedQueryMatch e.2 callerId)) :=
      sortBy_perm _ _
    have hmain := paging_complete
      (db.filter (fun e => likedQueryMatch e.2 callerId))
      (likedPostsResultSet db callerId) limit h hperm
    exact ⟨⟨hmain.1.1, hmain.1.2⟩, hmain.2.1, hperm, hmain.2.2.1⟩
  · intro db caller uid qtype limit h
    have hperm : (userPostsResultSet db caller uid qtype).Perm
        (db.filter (fun e => userPostsQueryMatch e.2 uid qtype
          (userPostsRequirePublic caller uid))) :=
      sortBy_perm _ _
    have hmain := paging_complete
      (db.filter (fun e => userPostsQueryMatch e.2 uid qtype
        (userPostsRequirePublic caller uid)))
      (userPostsResultSet db caller uid qtype) limit h hperm
    exact ⟨⟨hmain.1.1, hmain.1.2⟩, hmain.2.1, hperm, hmain.2.2.1⟩
  · intro db pid limit h
    have hperm : (commentsByPostResultSet db pid).Perm
        (db.filter (fun e => commentsByPostMatch e.2 pid)) :=
      sortBy_perm _ _
    have hmain := paging_complete
      (db.filter (fun e => commentsByPostMatch e.2 pid))
      (commentsByPostResultSet db pid) limit h hperm
    exact ⟨⟨hmain.1.1, hmain.1.2⟩, hmain.2.1, hperm, hmain.2.2.1⟩
  · intro db cid limit h
    have hperm : (repliesResultSet db cid).Perm
        (db.filter (fun e => repliesMatch e.2 cid)) :=
      sortBy_perm _ _
    have hmain := paging_complete
      (db.filter (fun e => repliesMatch e.2 cid))
      (repliesResultSet db cid) limit h hperm
    exact ⟨⟨hmain.1.1, hmain.1.2⟩, hmain.2.1, hperm, hmain.2.2.1⟩

/-- Witness for C6: on the concrete demo collections with limit 10, the
pages bound holds and concatenating the pages reproduces the full result
set. -/
theorem pagination_invariant_witness :
    ((listPostsOp demoPostsDB 1 10 "" "" "" "").2.total ≤
        (listPostsOp demoPostsDB 1 10 "" "" "" "").2.pages * 10 ∧
      pagesConcat (fun pg => listPostsOp demoPostsDB pg 10 "" "" "" "")
          (listPostsOp demoPostsDB 1 10 "" "" "" "").2.pages
        = listPostsResultSet demoPostsDB "" "" "" "") ∧
    pagesConcat (fun pg => commentsByPostOp demoCommentsDB "p1" pg 10)
        (commentsByPostOp demoCommentsDB "p1" 1 10).2.pages
      = commentsByPostResultSet demoCommentsDB "p1" ∧
    pagesConcat (fun pg => listUsersOp demoUsersDB pg 10 "" "" "")
        (listUsersOp demoUsersDB 1 10 "" "" "").2.pages
      = listUsersResultSet demoUsersDB "" "" "" := by
  have hp := pagination_invariant.1 demoPostsDB 10 "" "" "" "" (by decide)
  have hc := pagination_invariant.2.2.2.2.1 demoCommentsDB "p1" 10 (by decide)
  have hu := pagination_invariant.2.1 demoUsersDB 10 "" "" "" (by decide)
  exact ⟨⟨hp.1.1, hp.2.1⟩, hc.2.1, hu.2.1⟩

theorem mem_of_mem_paginate {alpha : Type} (l : List alpha) (page limit : Nat)
    (e : alpha) (h : e ∈ paginate l page limit) : e ∈ l :=
  List.mem_of_mem_drop (List.mem_of_mem_take h)

/-- C8: every post returned by the paginated posts listing (GET `/`) is
public — the query always carries `isPublic: true`; every post returned by a
user's-posts listing (GET `/user/:userId`) is public or belongs to the
authenticated caller viewing their own posts; and when the caller views their
own posts, every one of their posts matching the type filter — private ones
included — is in the result set. -/
theorem posts_listing_visibility :
    (∀ (db : PostsDB) (page limit : Nat) (qt qc qa qs : String),
      ∀ e ∈ (listPostsOp db page limit qt qc qa qs).1, e.2.isPublic = true) ∧
    (∀ (db : PostsDB) (caller : Option String) (uid : String)
      (page limit : Nat) (qtype : String),
      ∀ e ∈ (userPostsOp db caller uid page limit qtype).1,
        e.2.isPublic = true ∨ caller = some e.2.author) ∧
    (∀ (db : PostsDB) (uid qtype : String) (e : String × PostRec),
      e ∈ db → e.2.author = uid → (qtype = "" ∨ e.2.type = qtype) →
      e ∈ userPostsResultSet db (some uid) uid qtype) := by
  refine ⟨?_, ?_, ?_⟩
  · intro db page limit qt qc qa qs e he
    have h1 : e ∈ listPostsResultSet db qt qc qa qs :=
      mem_of_mem_paginate _ _ _ _ he
    have h2 : e ∈ db.filter (fun e => postsQueryMatch e.2 qt qc qa qs) :=
      ((sortBy_perm _ _).mem_iff).mp h1
    have h3 := List.of_mem_filter h2
    simp only [postsQueryMatch, Bool.and_eq_true] at h3
    exact h3.1.1.1.1
  · intro db caller uid page limit qtype e he
    have h1 : e ∈ userPostsResultSet db caller uid qtype :=
      mem_of_mem_paginate _ _ _ _ he
    have h2 : e ∈ db.filter (fun e =>
        userPostsQueryMatch e.2 uid qtype (userPostsRequirePublic caller uid)) :=
      ((sortBy_perm _ _).mem_iff).mp h1
    have h3 := List.of_mem_filter h2
    simp only [userPostsQueryMatch, Bool.and_eq_true, Bool.or_eq_true] at h3
    rcases h3.2 with hpriv | hpub
    · cases caller with
      | none => simp [userPostsRequirePublic] at hpriv
      | some c =>
        right
        have hauthor : e.2.author = uid := by
          have := h3.1.1
          simpa using this
        have huc : uid = c := by
          simpa [userPostsRequirePublic] using hpriv
        rw [hauthor, huc]
    · left
      exact hpub
  · intro db uid qtype e hmem hauthor htype
    have hreq : userPostsRequirePublic (some uid) uid = false := by
      simp [userPostsRequirePublic]
    have hpred0 : userPostsQueryMatch e.2 uid qtype false = true := by
      cases htype with
      | inl h => simp [userPostsQueryMatch, hauthor, h]
      | inr h => simp [userPostsQueryMatch, hauthor, h]
    have hpred : userPostsQueryMatch e.2 uid qtype
        (userPostsRequirePublic (some uid) uid) = true := by
      rw [hreq]
      exact hpred0
    exact ((sortBy_perm _ _).mem_iff).mpr (List.mem_filter.mpr ⟨hmem, hpred⟩)

/-- Witness for C8: the demo post returned by the posts listing is public,
and a private post of "idA" appears in "idA"'s own user-posts result set. -/
theorem posts_listing_visibility_witness :
    (("p1", demoPost) : String × PostRec).2.isPublic = true ∧
    ("p2", demoPrivatePost) ∈
      userPostsResultSet [("p2", demoPrivatePost)] (some "idA") "idA" "" := by
  refine ⟨?_, ?_⟩
  · exact posts_listing_visibility.1 demoPostsDB 1 10 "" "" "" ""
      ("p1", demoPost) (by decide)
  · exact posts_listing_visibility.2.2 [("p2", demoPrivatePost)] "idA" ""
      ("p2", demoPrivatePost) (by decide) (by decide) (Or.inl rfl)

/-- C7 counterexample: the claim that the create-post and update-post
validator category enumerations differ is false — the two `isIn` lists are
identical, so no category value is accepted by the update validation while
being rejected by the create validation. -/
theorem category_lists_create_update_identical :
    updateCategoryList = createCategoryList ∧
    ∀ cat ∈ updateCategoryList, cat ∈ createCategoryList := by
  exact ⟨rfl, by decide⟩

/-- C7 (amended): the create-post and update-post validator lists are
identical; the enumeration that differs is the Post schema's `category`
enum, which is missing "study-guide", "tutorial" and "research-assistant" —
each of those values is accepted by both route validators but rejected by the
schema enumeration. -/
theorem category_validator_schema_divergence :
    updateCategoryList = createCategoryList ∧
    ("study-guide" ∈ createCategoryList ∧ "study-guide" ∈ updateCategoryList ∧
      "study-guide" ∉ schemaCategoryList) ∧
    ("tutorial" ∈ createCategoryList ∧ "tutorial" ∈ updateCategoryList ∧
      "tutorial" ∉ schemaCategoryList) ∧
    ("research-assistant" ∈ createCategoryList ∧
      "research-assistant" ∈ updateCategoryList ∧
      "research-assistant" ∉ schemaCategoryList) := by
  refine ⟨rfl, ?_, ?_, ?_⟩ <;> exact ⟨by decide, by decide, by decide⟩

theorem updateProfileOp_eval (db : UsersDB) (callerId : String)
    (inp : ProfileInput) (me : UserRec) (h : dbFind db callerId = some me) :
    updateProfileOp db callerId inp =
      if usernameTaken db me inp.username then (400, db)
      else if emailTaken db me inp.email then (400, db)
      else
        (200, dbUpdate db callerId (fun u =>
          { u with
            fullName := orFallback inp.fullName me.fullName,
            username := orFallback inp.username me.username,
            email := orFallback inp.email me.email,
            university := orFallback inp.university me.university,
            major := orFallback inp.major me.major,
            bio := orFallback inp.bio me.bio })) := by
  unfold updateProfileOp
  rw [h]

theorem orFallback_blank (x : Option String) (old : String)
    (h : blankInput x) : orFallback x old = old := by
  rcases h with h | h <;> rw [h] <;> simp [orFallback]

theorem orFallback_ne_empty (x : Option String) (old : String)
    (h : old ≠ "") : orFallback x old ≠ "" := by
  cases x with
  | none => exact h
  | some s =>
    show (if s = "" then old else s) ≠ ""
    by_cases hs : s = ""
    · rw [if_pos hs]; exact h
    · rw [if_neg hs]; exact hs

/-- C10: in PUT `/profile`, a falsy supplied value (absent field or empty
string) for any of fullName, username, email, university, major or bio leaves
that stored field unchanged, whatever the outcome of the request; and no such
field that is currently nonempty can ever become the empty string through
this endpoint, for any input. -/
theorem profile_update_blank_fields_unchanged
    (db : UsersDB) (callerId : String) (inp : ProfileInput) (me : UserRec)
    (h : dbFind db callerId = some me) :
    (blankInput inp.fullName →
      (dbFind (updateProfileOp db callerId inp).2 callerId).map UserRec.fullName
        = some me.fullName) ∧
    (blankInput inp.username →
      (dbFind (updateProfileOp db callerId inp).2 callerId).map UserRec.username
        = some me.username) ∧
    (blankInput inp.email →
      (dbFind (updateProfileOp db callerId inp).2 callerId).map UserRec.email
        = some me.email) ∧
    (blankInput inp.university →
      (dbFind (updateProfileOp db callerId inp).2 callerId).map UserRec.university
        = some me.university) ∧
    (blankInput inp.major →
      (dbFind (updateProfileOp db callerId inp).2 callerId).map UserRec.major
        = some me.major) ∧
    (blankInput inp.bio →
      (dbFind (updateProfileOp db callerId inp).2 callerId).map UserRec.bio
        = some me.bio) ∧
    (∀ u', dbFind (updateProfileOp db callerId inp).2 callerId = some u' →
      (me.fullName ≠ "" → u'.fullName ≠ "") ∧
      (me.username ≠ "" → u'.username ≠ "") ∧
      (me.email ≠ "" → u'.email ≠ "") ∧
      (me.university ≠ "" → u'.university ≠ "") ∧
      (me.major ≠ "" → u'.major ≠ "") ∧
      (me.bio ≠ "" → u'.bio ≠ "")) := by
  have he := updateProfileOp_eval db callerId inp me h
  by_cases hu : usernameTaken db me inp.username = true
  · rw [if_pos hu] at he
    have hfind : dbFind (updateProfileOp db callerId inp).2 callerId = some me := by
      rw [he]
      exact h
    refine ⟨fun hb => by rw [hfind]; rfl, fun hb => by rw [hfind]; rfl,
      fun hb => by rw [hfind]; rfl, fun hb => by rw [hfind]; rfl,
      fun hb => by rw [hfind]; rfl, fun hb => by rw [hfind]; rfl, ?_⟩
    intro u' hu'
    rw [hfind] at hu'
    have hue : u' = me := (Option.some.inj hu').symm
    rw [hue]
    exact ⟨fun a => a, fun a => a, fun a => a, fun a => a, fun a => a, fun a => a⟩
  · rw [if_neg hu] at he
    by_cases hm : emailTaken db me inp.email = true
    · rw [if_pos hm] at he
      have hfind : dbFind (updateProfileOp db callerId inp).2 callerId
          = some me := by
        rw [he]
        exact h
      refine ⟨fun hb => by rw [hfind]; rfl, fun hb => by rw [hfind]; rfl,
        fun hb => by rw [hfind]; rfl, fun hb => by rw [hfind]; rfl,
        fun hb => by rw [hfind]; rfl, fun hb => by rw [hfind]; rfl, ?_⟩
      intro u' hu'
      rw [hfind] at hu'
      have hue : u' = me := (Option.some.inj hu').symm
      rw [hue]
      exact ⟨fun a => a, fun a => a, fun a => a, fun a => a, fun a => a, fun a => a⟩
    · rw [if_neg hm] at he
      have hs2 : (updateProfileOp db callerId inp).2 =
          dbUpdate db callerId (fun u =>
            { u with
              fullName := orFallback inp.fullName me.fullName,
              username := orFallback inp.username me.username,
              email := orFallback inp.email me.email,
              university := orFallback inp.university me.university,
              major := orFallback inp.major me.major,
              bio := orFallback inp.bio me.bio }) := by
        rw [he]
      have hfind : dbFind (updateProfileOp db callerId inp).2 callerId
          = some { me with
              fullName := orFallback inp.fullName me.fullName,
              username := orFallback inp.username me.username,
              email := orFallback inp.email me.email,
              university := orFallback inp.university me.university,
              major := orFallback inp.major me.major,
              bio := orFallback inp.bio me.bio } := by
        rw [hs2, dbFind_dbUpdate_self, h]
        rfl
      refine ⟨?_, ?_, ?_, ?_, ?_, ?_, ?_⟩
      · intro hb
        rw [hfind]
        exact congrArg some (orFallback_blank _ _ hb)
      · intro hb
        rw [hfind]
        exact congrArg some (orFallback_blank _ _ hb)
      · intro hb
        rw [hfind]
        exact congrArg some (orFallback_blank _ _ hb)
      · intro hb
        rw [hfind]
        exact congrArg some (orFallback_blank _ _ hb)
      · intro hb
        rw [hfind]
        exact congrArg some (orFallback_blank _ _ hb)
      · intro hb
        rw [hfind]
        exact congrArg some (orFallback_blank _ _ hb)
      · intro u' hu'
        rw [hfind] at hu'
        have hue := (Option.some.inj hu').symm
        rw [hue]
        exact ⟨fun a => orFallback_ne_empty _ _ a, fun a => orFallback_ne_empty _ _ a,
          fun a => orFallback_ne_empty _ _ a, fun a => orFallback_ne_empty _ _ a,
          fun a => orFallback_ne_empty _ _ a, fun a => orFallback_ne_empty _ _ a⟩

/-- Witness for C10: sending empty strings / absent fields for every profile
field leaves "idA"'s stored fullName and username unchanged. -/
theorem profile_update_blank_fields_unchanged_witness :
    (dbFind (updateProfileOp demoUsersDB "idA" demoProfileInput).2 "idA").map
        UserRec.fullName = some demoUserA.fullName ∧
    (dbFind (updateProfileOp demoUsersDB "idA" demoProfileInput).2 "idA").map
        UserRec.username = some demoUserA.username := by
  have h := profile_update_blank_fields_unchanged demoUsersDB "idA"
    demoProfileInput demoUserA (by decide)
  exact ⟨h.1 (Or.inr rfl), h.2.1 (Or.inl rfl)⟩
